import Mathlib

/-!
Shallow embedding of the factor-mining controller of this repository
(`factor_mining.py`, with the AI-client helpers of `AI_wqb/ai_client.py`),
and theorems settling the specification claims about it.

Modelling conventions:
* Pure string manipulation (the field-casing normalization inside
  `FactorMiningSystem.simulate_factor`) is embedded directly, with Python
  `str.replace` / `in` semantics spelled out on `List Char`.
* The effectful steps of `mine_factors` (dataset selection, AI generation,
  simulation, check) depend on the network and the AI model; they are
  abstracted by an environment oracle that supplies, per outer cycle and per
  improvement round, the outcome the Python call would return.  The control
  flow around those outcomes is translated from the source line by line.
* Python exceptions are modelled explicitly: a step that the source code does
  not wrap in `try` can yield `StepRes.exn`; `simulate_factor` and
  `check_factor` catch all their own exceptions and return `{}` (modelled as
  `none` / `CheckRes.empty`), so at the `mine_factors` level they never raise.
* `while` loops are given as structural recursion: the improvement sub-loop
  `while iteration < max_iterations` recurses on the remaining budget
  `max_iterations - iteration`, and the outer `while` loop takes an explicit
  fuel parameter (the number of outer cycles we observe); exhausting the fuel
  is flagged in the result so that theorems can distinguish a genuinely
  terminated run from a truncated observation.
* Floating point scores (`min_sharpe`, the check values) are modelled as `Rat`;
  only order comparisons are performed on them in the source.
-/

/-- Python runtime errors relevant to the modelled code paths. -/
inductive PyErr where
  | indexError
  deriving DecidableEq, Repr

/-- One entry of the dataset catalog (`datasets_info['results']`).  Only the
`id` key is consulted by the modelled selection logic
(`factor_mining.py` lines 131-147, `ai_client.py` lines 86-98). -/
structure Dataset where
  id : String
  deriving DecidableEq, Repr

/-- One entry of the data-field catalog returned by `get_datafields`.  Only the
`id` key is consulted by the casing normalization in `simulate_factor`. -/
structure DataField where
  id : String
  deriving DecidableEq, Repr

/-- Python `str.lower()` on the character list of a string. -/
def lowerStr (s : List Char) : List Char :=
  s.map Char.toLower

/-- Python substring test `pat in s` (for strings): `pat` occurs contiguously
in `s`.  The empty pattern occurs in every string, as in Python. -/
def strContains (s pat : List Char) : Bool :=
  match s with
  | [] => decide (pat = [])
  | _ :: rest => pat.isPrefixOf s || strContains rest pat

/-- Worker for `replacePy`, recursing on an explicit fuel that starts at the
length of the subject string (each step consumes at least one character of the
subject, so the fuel never runs out on the inputs `replacePy` passes). -/
def replacePyGo (pat rep : List Char) : Nat → List Char → List Char
  | _, [] => []
  | 0, s => s
  | fuel + 1, c :: rest =>
    if !pat.isEmpty && pat.isPrefixOf (c :: rest) then
      rep ++ replacePyGo pat rep fuel ((c :: rest).drop pat.length)
    else
      c :: replacePyGo pat rep fuel rest

/-- Python `s.replace(pat, rep)` for a non-empty `pat`: replaces the
non-overlapping occurrences of `pat` in `s` left to right, case-sensitively.
(The catalog field ids substituted in `simulate_factor` are non-empty, so the
special Python behaviour of an empty pattern is not modelled.) -/
def replacePy (s pat rep : List Char) : List Char :=
  replacePyGo pat rep s.length s

/-- The dict comprehension `{field['id'].lower(): field for field in
fields_data}` of `simulate_factor` (line 186): association list keyed by the
lowercased id, in first-insertion order, later duplicates overwriting. -/
def buildFieldMap (fields : List DataField) : List (List Char × String) :=
  fields.foldl
    (fun m f =>
      let k := lowerStr f.id.data
      if m.any (fun p => p.1 = k) then
        m.map (fun p => if p.1 = k then (k, f.id) else p)
      else
        m ++ [(k, f.id)])
    []

/-- The casing-normalization loop of `simulate_factor` (lines 188-191):

    for field_id, field_info in field_map.items():
        if field_id in factor_expr.lower():
            factor_expr = factor_expr.replace(field_id, field_info['id'])

The membership test lowercases the expression, but `str.replace` is
case-sensitive and is given the lowercased key as its pattern. -/
def normalizeFieldCase (fields : List DataField) (expr : String) : String :=
  (buildFieldMap fields).foldl
    (fun e kv =>
      if strContains (lowerStr e.data) kv.1 then
        String.mk (replacePy e.data kv.1 kv.2.data)
      else e)
    expr

/-- The catalog scan plus fallback of `FactorMiningSystem.select_dataset`
(lines 138-147): return the first catalog entry whose id equals the AI's
suggested id, else `results[0]` — which raises `IndexError` on an empty
catalog, since the indexing is unguarded. -/
def select_dataset (results : List Dataset) (selectedId : String) : Except PyErr Dataset :=
  match results.find? (fun d => d.id == selectedId) with
  | some d => Except.ok d
  | none =>
    match results with
    | [] => Except.error PyErr.indexError
    | d :: _ => Except.ok d

/-- The AI client's own default path (`ai_client.py` lines 89-98): when the AI
response cannot be parsed, the default suggestion is
`datasets_info['results'][0]['id']`, again an unguarded index. -/
def aiSelectFallbackId (results : List Dataset) : Except PyErr String :=
  match results with
  | [] => Except.error PyErr.indexError
  | d :: _ => Except.ok d.id

/-- Outcome of an effectful step as observed by `mine_factors`: either the
value the Python call returned, or an exception it raised. -/
inductive StepRes (α : Type) where
  | exn
  | ok (val : α)
  deriving DecidableEq, Repr

/-- The check report at the `mine_factors` level.  `empty` is the falsy `{}`
that `check_factor` returns on any failure; `ok checks` is a truthy report,
where `checks` models `report['is']['checks']` — `none` when either key is
missing (the source substitutes defaults `{}` / `[{}]`), and each list entry
is the entry's `value` (or `none` when that key is missing). -/
inductive CheckRes where
  | empty
  | ok (checks : Option (List (Option Rat)))
  deriving DecidableEq, Repr

/-- The expression `check_result.get('is', {}).get('checks', [{}])[0]
.get('value', 0)` of `mine_factors` line 402: missing keys default to `0`,
but a present-and-empty `checks` list makes the `[0]` indexing raise. -/
def primaryScore : Option (List (Option Rat)) → Except PyErr Rat
  | none => Except.ok 0
  | some [] => Except.error PyErr.indexError
  | some (e :: _) => Except.ok (e.getD 0)

/-- One mined factor (`factor_info` dicts of lines 354-360 / 393-398): the
expression, the simulation id `sim_result['alpha']`, the check report's
`is.checks` payload, and the cycle's dataset. -/
structure FactorRecord where
  expression : String
  alphaId : String
  checkData : Option (List (Option Rat))
  dataset : Dataset
  deriving DecidableEq, Repr

/-- `FACTOR_MINING_CONFIG` (`config_local.py`) together with the
`mine_factors` parameters that default to it. -/
structure MiningConfig where
  maxIterations : Nat
  minSharpe : Rat
  maxFactors : Nat
  saveInterval : Nat
  deriving DecidableEq, Repr

/-- Oracle outcomes for one pass of the improvement sub-loop: the revised
expression from `generate_next_factor` (which can raise — it is only wrapped
by the sub-loop's own `try`), the simulation id if `simulate_factor` returned
a report containing `'alpha'` (it catches its own exceptions), and the check
report (likewise). -/
structure RoundEnv where
  genNext : StepRes String
  simRes : Option String
  checkRes : CheckRes
  deriving Repr

/-- Oracle outcomes for one outer cycle of `mine_factors`: the dataset
selection (can raise), the initial expression from `generate_initial_factor`
(can raise), the seed simulation and check outcomes, and the outcomes of the
improvement rounds, indexed by the sub-loop's `iteration` counter. -/
structure CycleEnv where
  selectDs : StepRes Dataset
  genInit : StepRes String
  simRes : Option String
  checkRes : CheckRes
  rounds : Nat → RoundEnv

/-- Observable state of a `mine_factors` run: the accumulated
`self.mined_factors`, the snapshots written by the periodic `save_factors`
call of line 420-421 (each snapshot is the full list at that moment), the
number of outer cycle bodies entered, and the number of errors logged at the
outer-cycle `except` boundary. -/
structure MineState where
  mined : List FactorRecord
  saves : List (List FactorRecord)
  cyclesRun : Nat
  errorsLogged : Nat
  deriving DecidableEq, Repr

/-- The state `mine_factors` starts from (`self.mined_factors = []` in the
constructor; `mine_factors` is invoked once per system, from `main`). -/
def initState : MineState :=
  { mined := [], saves := [], cyclesRun := 0, errorsLogged := 0 }

/-- Result of one pass of the improvement sub-loop body: `brk` exits the
sub-loop (any of its `break` statements), `cont` falls through to
`iteration += 1` and loops again.  The payload is the updated factor list. -/
inductive PassResult where
  | brk (acc : List FactorRecord)
  | cont (acc : List FactorRecord)
  deriving Repr

/-- The factor list carried by a `PassResult`. -/
def pass_acc : PassResult → List FactorRecord
  | PassResult.brk a => a
  | PassResult.cont a => a

/-- One body execution of the improvement sub-loop (lines 365-417), given the
round's oracle outcomes `r` and the current factor list `acc`:
generation failure or exception, simulation failure, or check failure break
without appending; a full success appends the record and then breaks if the
primary score reaches `min_sharpe` (or if evaluating the score expression
raises, which the sub-loop's `try` turns into a break), else continues. -/
def improvePass (minSharpe : Rat) (ds : Dataset) (r : RoundEnv)
    (acc : List FactorRecord) : PassResult :=
  match r.genNext with
  | StepRes.exn => PassResult.brk acc
  | StepRes.ok e =>
    if e = "" then PassResult.brk acc
    else
      match r.simRes with
      | none => PassResult.brk acc
      | some alphaId =>
        match r.checkRes with
        | CheckRes.empty => PassResult.brk acc
        | CheckRes.ok cd =>
          let acc2 := acc ++ [⟨e, alphaId, cd, ds⟩]
          match primaryScore cd with
          | Except.error _ => PassResult.brk acc2
          | Except.ok v =>
            if minSharpe ≤ v then PassResult.brk acc2 else PassResult.cont acc2

/-- Result of the improvement sub-loop: the final factor list and the number
of body executions (passes) performed. -/
structure SubResult where
  acc : List FactorRecord
  passes : Nat
  deriving DecidableEq, Repr

/-- Worker for the improvement sub-loop, recursing on the remaining iteration
budget `max_iterations - iteration` (the loop guard `iteration < max_iterations`
holds exactly when the budget is positive, and the only looping path of the
body increments `iteration`, so the budget drops by one per recursion). -/
def improveLoopAux (env : Nat → RoundEnv) (minSharpe : Rat) (ds : Dataset) :
    Nat → Nat → List FactorRecord → SubResult
  | 0, _, acc => ⟨acc, 0⟩
  | remaining + 1, it, acc =>
    match improvePass minSharpe ds (env it) acc with
    | PassResult.brk acc2 => ⟨acc2, 1⟩
    | PassResult.cont acc2 =>
      let rest := improveLoopAux env minSharpe ds remaining (it + 1) acc2
      ⟨rest.acc, rest.passes + 1⟩

/-- The improvement sub-loop `while iteration < max_iterations` of
`mine_factors` (lines 363-417), entered by the source with `iteration = 0`
and `acc = self.mined_factors` (seed record already appended). -/
def improveLoop (env : Nat → RoundEnv) (minSharpe : Rat) (maxIterations : Nat)
    (ds : Dataset) (iteration : Nat) (acc : List FactorRecord) : SubResult :=
  improveLoopAux env minSharpe ds (maxIterations - iteration) iteration acc

/-- One outer cycle body of `mine_factors` (lines 321-432), given the cycle's
oracle outcomes.  Returns the updated state and `true` when the cycle ends in
`break` (either the cap test of line 424 or the outer `except` of lines
427-432, which logs and breaks), `false` when the loop would continue
(including the `continue` statements of the failure paths, which skip the
save-interval check). -/
def runCycle (cfg : MiningConfig) (c : CycleEnv) (s : MineState) :
    MineState × Bool :=
  let s1 := { s with cyclesRun := s.cyclesRun + 1 }
  match c.selectDs with
  | StepRes.exn => ({ s1 with errorsLogged := s1.errorsLogged + 1 }, true)
  | StepRes.ok ds =>
    match c.genInit with
    | StepRes.exn => ({ s1 with errorsLogged := s1.errorsLogged + 1 }, true)
    | StepRes.ok e =>
      if e = "" then (s1, false)
      else
        match c.simRes with
        | none => (s1, false)
        | some alphaId =>
          match c.checkRes with
          | CheckRes.empty => (s1, false)
          | CheckRes.ok cd =>
            let mined1 := s1.mined ++ [⟨e, alphaId, cd, ds⟩]
            let sub := improveLoop c.rounds cfg.minSharpe cfg.maxIterations ds 0 mined1
            let s2 := { s1 with mined := sub.acc }
            let s3 :=
              if sub.acc.length % cfg.saveInterval = 0 then
                { s2 with saves := s2.saves ++ [sub.acc] }
              else s2
            (s3, decide (cfg.maxFactors ≤ sub.acc.length))

/-- The outer `while len(self.mined_factors) < max_factors` loop of
`mine_factors` (line 320), with explicit observation fuel.  The second
component is `true` exactly when the fuel ran out while the loop still had
work to do (a truncated observation, not a real loop exit). -/
def mineLoop (cfg : MiningConfig) (env : Nat → CycleEnv) :
    Nat → MineState → MineState × Bool
  | 0, s => (s, decide (s.mined.length < cfg.maxFactors))
  | fuel + 1, s =>
    if s.mined.length < cfg.maxFactors then
      match runCycle cfg (env s.cyclesRun) s with
      | (s2, true) => (s2, false)
      | (s2, false) => mineLoop cfg env fuel s2
    else (s, false)

/-- Full observable result of a `mine_factors` run: the state, whether the
final `save_factors()` of line 435 executed, whether an exception escaped
`mine_factors` itself, and whether the observation fuel ran out. -/
structure MineResult where
  state : MineState
  finalSave : Bool
  escapedExn : Bool
  fuelOut : Bool
  deriving DecidableEq, Repr

/-- `FactorMiningSystem.mine_factors` (lines 311-435).  `initOk` records
whether the `await self.initialize()` call of line 318 succeeds; it sits
outside the loop's `try`, so when it raises, the exception escapes
`mine_factors` before any factor is mined or saved.  After the loop exits
(for a real reason, not fuel exhaustion) the final `save_factors()` of line
435 runs unconditionally. -/
def mineFactors (cfg : MiningConfig) (initOk : Bool) (env : Nat → CycleEnv)
    (fuel : Nat) : MineResult :=
  if initOk then
    let p := mineLoop cfg env fuel initState
    { state := p.1, finalSave := !p.2, escapedExn := false, fuelOut := p.2 }
  else
    { state := initState, finalSave := false, escapedExn := true, fuelOut := false }

/-- A check report whose primary score is 0 (below any positive threshold). -/
def zeroCheck : CheckRes := CheckRes.ok (some [some 0])

/-- A fixed concrete dataset used by the concrete runs below. -/
def dsX : Dataset := ⟨"ds1"⟩

/-- An improvement round whose generation, simulation and check all succeed,
with primary score 0. -/
def okRound : RoundEnv := ⟨StepRes.ok "f1", some "a1", zeroCheck⟩

/-- An outer cycle whose every step succeeds, with improvement rounds scoring 0. -/
def okCycle : CycleEnv :=
  ⟨StepRes.ok dsX, StepRes.ok "f0", some "a0", zeroCheck, fun _ => okRound⟩

/-- An outer cycle whose dataset-selection step raises. -/
def exnCycle : CycleEnv :=
  ⟨StepRes.exn, StepRes.ok "", none, CheckRes.empty, fun _ => okRound⟩

/-- Environment where the first cycle appends a seed record and two improvement
records and then ends its sub-loop on a failed generation; later cycles raise. -/
def saveMissEnv : Nat → CycleEnv := fun n =>
  if n = 0 then
    ⟨StepRes.ok dsX, StepRes.ok "f0", some "a0", zeroCheck,
      fun p => if p < 2 then okRound else ⟨StepRes.ok "", none, CheckRes.empty⟩⟩
  else exnCycle

/-- Environment where the first cycle appends exactly two records and every
later cycle raises. -/
def saveHitEnv : Nat → CycleEnv := fun n => if n = 0 then okCycle else exnCycle

/-- Environment where the first cycle raises at dataset selection and every
later cycle would fully succeed. -/
def exnThenOkEnv : Nat → CycleEnv := fun n => if n = 0 then exnCycle else okCycle


/-- The factor list carried by one sub-loop pass grows by at most one record. -/
theorem improvePass_acc_length (m : Rat) (ds : Dataset) (r : RoundEnv)
    (acc : List FactorRecord) :
    (pass_acc (improvePass m ds r acc)).length ≤ acc.length + 1 := by
  unfold improvePass
  repeat' split
  all_goals simp [pass_acc]

/-- The sub-loop grows the factor list by at most its remaining budget. -/
theorem improveLoopAux_acc_length (env : Nat → RoundEnv) (m : Rat) (ds : Dataset) :
    ∀ remaining it acc,
      (improveLoopAux env m ds remaining it acc).acc.length ≤ acc.length + remaining := by
  intro remaining
  induction remaining with
  | zero => intro it acc; simp [improveLoopAux]
  | succ r ih =>
    intro it acc
    have hp := improvePass_acc_length m ds (env it) acc
    simp only [improveLoopAux]
    cases hcase : improvePass m ds (env it) acc with
    | brk acc2 =>
      rw [hcase] at hp
      simp only [pass_acc] at hp
      exact le_trans hp (by omega)
    | cont acc2 =>
      rw [hcase] at hp
      simp only [pass_acc] at hp
      have hrec := ih (it + 1) acc2
      exact le_trans hrec (by omega)

/-- The sub-loop performs at most its remaining budget of passes. -/
theorem improveLoopAux_passes_le (env : Nat → RoundEnv) (m : Rat) (ds : Dataset) :
    ∀ remaining it acc,
      (improveLoopAux env m ds remaining it acc).passes ≤ remaining := by
  intro remaining
  induction remaining with
  | zero => intro it acc; simp [improveLoopAux]
  | succ r ih =>
    intro it acc
    simp only [improveLoopAux]
    cases hcase : improvePass m ds (env it) acc with
    | brk acc2 => simp
    | cont acc2 =>
      have hrec := ih (it + 1) acc2
      simp only []
      omega


/-- The sub-loop, as entered by `mine_factors` (iteration 0), grows the factor
list by at most `maxIterations` records. -/
theorem improveLoop_acc_length (env : Nat → RoundEnv) (m : Rat) (maxIter : Nat)
    (ds : Dataset) (acc : List FactorRecord) :
    (improveLoop env m maxIter ds 0 acc).acc.length ≤ acc.length + maxIter := by
  simpa [improveLoop] using improveLoopAux_acc_length env m ds maxIter 0 acc

/-- One outer cycle grows the mined list by at most `1 + maxIterations`. -/
theorem runCycle_mined_length (cfg : MiningConfig) (c : CycleEnv) (s : MineState) :
    (runCycle cfg c s).1.mined.length ≤ s.mined.length + 1 + cfg.maxIterations := by
  unfold runCycle
  repeat' split
  all_goals dsimp only
  all_goals try omega
  all_goals split
  all_goals dsimp only
  all_goals refine le_trans (improveLoop_acc_length _ _ _ _ _) ?_
  all_goals simp only [List.length_append, List.length_singleton]
  all_goals omega

/-- Every snapshot present after a cycle was either already present or was
written by the cycle's save-interval check, hence has a multiple-of-interval
record count. -/
theorem runCycle_saves_mem (cfg : MiningConfig) (c : CycleEnv) (s : MineState)
    (t : List FactorRecord) (ht : t ∈ (runCycle cfg c s).1.saves) :
    t ∈ s.saves ∨ t.length % cfg.saveInterval = 0 := by
  unfold runCycle at ht
  repeat' split at ht
  all_goals dsimp only at ht
  all_goals try exact Or.inl ht
  all_goals split at ht
  all_goals dsimp only at ht
  all_goals try exact Or.inl ht
  all_goals rename_i hmod
  all_goals rw [List.mem_append, List.mem_singleton] at ht
  all_goals rcases ht with ht | ht
  all_goals try exact Or.inl ht
  all_goals subst ht
  all_goals exact Or.inr hmod

/-- The outer loop keeps the mined count at or below
`maxFactors + maxIterations` once it is there, because a cycle only runs with
the count strictly below `maxFactors` and adds at most
`1 + maxIterations` records. -/
theorem mineLoop_mined_length (cfg : MiningConfig) (env : Nat → CycleEnv) :
    ∀ fuel s, s.mined.length ≤ cfg.maxFactors + cfg.maxIterations →
      (mineLoop cfg env fuel s).1.mined.length ≤ cfg.maxFactors + cfg.maxIterations := by
  intro fuel
  induction fuel with
  | zero => intro s h; simpa [mineLoop] using h
  | succ f ih =>
    intro s h
    simp only [mineLoop]
    by_cases hc : s.mined.length < cfg.maxFactors
    · rw [if_pos hc]
      have hr := runCycle_mined_length cfg (env s.cyclesRun) s
      rcases hrc : runCycle cfg (env s.cyclesRun) s with ⟨s2, b⟩
      rw [hrc] at hr
      dsimp only at hr
      cases b
      · exact ih s2 (by omega)
      · exact le_trans hr (by omega)
    · rw [if_neg hc]; exact h

/-- Snapshot lists written during the outer loop all have a
multiple-of-`saveInterval` record count, as long as the ones already present
do. -/
theorem mineLoop_saves_mem (cfg : MiningConfig) (env : Nat → CycleEnv) :
    ∀ fuel s, (∀ t ∈ s.saves, t.length % cfg.saveInterval = 0) →
      ∀ t ∈ (mineLoop cfg env fuel s).1.saves, t.length % cfg.saveInterval = 0 := by
  intro fuel
  induction fuel with
  | zero => intro s h; simpa [mineLoop] using h
  | succ f ih =>
    intro s h
    simp only [mineLoop]
    by_cases hc : s.mined.length < cfg.maxFactors
    · rw [if_pos hc]
      rcases hrc : runCycle cfg (env s.cyclesRun) s with ⟨s2, b⟩
      have h2 : ∀ t ∈ s2.saves, t.length % cfg.saveInterval = 0 := by
        intro t ht
        have := runCycle_saves_mem cfg (env s.cyclesRun) s t (by rw [hrc]; exact ht)
        rcases this with hmem | hmul
        · exact h t hmem
        · exact hmul
      cases b
      · exact ih s2 h2
      · exact h2
    · rw [if_neg hc]; exact h

/-- C1 (code bug): the casing normalization of `simulate_factor` fails to do
what its own comment and guard intend.  For the catalog field id `close`, the
candidate expression `Close` passes the case-insensitive membership test, but
`str.replace` is case-sensitive and is handed the lowercased id as its
pattern, so the expression is submitted unchanged as `Close`, not as the
canonical `close`. -/
theorem simulate_factor_casing_code_eval :
    normalizeFieldCase [⟨"close"⟩] "Close" = "Close"
    ∧ ("Close" : String) ≠ "close" := by
  decide

/-- C2, counterexample: with `max_factors = 1` and `max_iterations = 1`, a run
whose every step succeeds (scores below threshold) ends with 2 mined records —
the improvement sub-loop appends without re-testing the cap, so the count
exceeds `max_factors`. -/
theorem mine_factors_cap_counterexample :
    (mineFactors ⟨1, 100, 1, 10⟩ true (fun _ => okCycle) 3).state.mined.length = 2
    ∧ (⟨1, 100, 1, 10⟩ : MiningConfig).maxFactors = 1 := by
  decide

/-- C2, amended: the cap is only tested at the outer-loop boundary, so a
cycle entered with the count just below `maxFactors` can overshoot by the
seed record plus up to `maxIterations` sub-loop records; the mined count
therefore never exceeds `maxFactors + maxIterations`. -/
theorem mine_factors_mined_le_cap_plus_rounds (cfg : MiningConfig)
    (initOk : Bool) (env : Nat → CycleEnv) (fuel : Nat) :
    (mineFactors cfg initOk env fuel).state.mined.length ≤
      cfg.maxFactors + cfg.maxIterations := by
  cases initOk with
  | false => simp [mineFactors, initState]
  | true =>
    have h := mineLoop_mined_length cfg env fuel initState (by simp [initState])
    simpa [mineFactors] using h

/-- C3, counterexample: an exception in the first outer cycle (at dataset
selection) ends the whole loop, even though the termination condition still
holds and the next cycle would fully succeed; only one cycle body ever runs
and nothing is mined, instead of the loop proceeding to the next cycle. -/
theorem mine_factors_cycle_exception_counterexample :
    (mineFactors ⟨1, 100, 100, 10⟩ true exnThenOkEnv 5).state.cyclesRun = 1
    ∧ (mineFactors ⟨1, 100, 100, 10⟩ true exnThenOkEnv 5).state.mined = [] := by
  decide

/-- C3, amended: an exception raised at an outer-cycle step (dataset selection
or initial generation, the steps not already guarded by their own handlers) is
caught at the outer-cycle `except` boundary and logged, but the handler
executes `break`: the loop terminates with the state otherwise unchanged
(the run then proceeds to the final save) instead of continuing with the next
cycle. -/
theorem mine_factors_cycle_exception_breaks_loop (cfg : MiningConfig)
    (env : Nat → CycleEnv) (fuel : Nat) (s : MineState)
    (hlen : s.mined.length < cfg.maxFactors)
    (habort : (env s.cyclesRun).selectDs = StepRes.exn ∨
      ∃ ds, (env s.cyclesRun).selectDs = StepRes.ok ds ∧
            (env s.cyclesRun).genInit = StepRes.exn) :
    mineLoop cfg env (fuel + 1) s =
      ({ s with cyclesRun := s.cyclesRun + 1,
                errorsLogged := s.errorsLogged + 1 }, false) := by
  simp only [mineLoop]
  rw [if_pos hlen]
  rcases habort with h | ⟨ds, h1, h2⟩
  · unfold runCycle
    rw [h]
  · unfold runCycle
    rw [h1, h2]

/-- C3, witness: a concrete one-cycle run hitting the amended behaviour. -/
theorem mine_factors_cycle_exception_breaks_loop_witness :
    mineLoop ⟨1, 100, 100, 10⟩ (fun _ => exnCycle) 2 initState =
      ({ initState with cyclesRun := initState.cyclesRun + 1,
                        errorsLogged := initState.errorsLogged + 1 }, false) :=
  mine_factors_cycle_exception_breaks_loop ⟨1, 100, 100, 10⟩ (fun _ => exnCycle)
    1 initState (by decide) (Or.inl rfl)

/-- C4, counterexample: with `save_interval = 2`, a single cycle that appends
3 records passes through the count 2 inside its sub-loop, yet no snapshot at
all is written during the loop — the interval check runs only at the end of a
cycle, where the count is 3. -/
theorem mine_factors_save_interval_counterexample :
    (mineFactors ⟨3, 100, 100, 2⟩ true saveMissEnv 5).state.mined.length = 3
    ∧ (mineFactors ⟨3, 100, 100, 2⟩ true saveMissEnv 5).state.saves = [] := by
  decide

/-- C4, amended: a periodic snapshot is written only at the end of a completed
outer cycle, exactly when the count at that moment is a multiple of
`save_interval` — so every periodic snapshot holds a multiple-of-interval
number of records, while a multiple reached strictly inside a cycle need not
trigger a write (and the unconditional final save can occur at any count). -/
theorem mine_factors_periodic_save_multiple (cfg : MiningConfig)
    (initOk : Bool) (env : Nat → CycleEnv) (fuel : Nat) (t : List FactorRecord)
    (ht : t ∈ (mineFactors cfg initOk env fuel).state.saves) :
    t.length % cfg.saveInterval = 0 := by
  cases initOk with
  | false => simp [mineFactors, initState] at ht
  | true =>
    have h := mineLoop_saves_mem cfg env fuel initState (by simp [initState])
    apply h
    simpa [mineFactors] using ht

/-- C4, witness: a run that writes one periodic snapshot of 2 records at
interval 2. -/
theorem mine_factors_periodic_save_multiple_witness :
    ([⟨"f0", "a0", some [some 0], dsX⟩, ⟨"f1", "a1", some [some 0], dsX⟩] :
        List FactorRecord).length %
      (⟨1, 100, 100, 2⟩ : MiningConfig).saveInterval = 0 :=
  mine_factors_periodic_save_multiple ⟨1, 100, 100, 2⟩ true saveHitEnv 4
    [⟨"f0", "a0", some [some 0], dsX⟩, ⟨"f1", "a1", some [some 0], dsX⟩]
    (by decide)

/-- C5, counterexample: when `initialize()` raises (it is called outside the
loop's `try`), the exception escapes `mine_factors` and no save at all is
performed — neither periodic nor final. -/
theorem mine_factors_init_exception_counterexample :
    (mineFactors ⟨1, 100, 100, 10⟩ false (fun _ => okCycle) 3).escapedExn = true
    ∧ (mineFactors ⟨1, 100, 100, 10⟩ false (fun _ => okCycle) 3).finalSave = false
    ∧ (mineFactors ⟨1, 100, 100, 10⟩ false (fun _ => okCycle) 3).state.saves = [] := by
  decide

/-- C5, amended: every run whose initialization succeeds — and which is
observed to completion — ends with the final `save_factors()` write, whether
the loop exits by the cap or by an error break; but an error during
initialization escapes `mine_factors` with no final persistence. -/
theorem mine_factors_final_save (cfg : MiningConfig) (env : Nat → CycleEnv)
    (fuel : Nat) :
    ((mineFactors cfg true env fuel).fuelOut = false →
      (mineFactors cfg true env fuel).finalSave = true)
    ∧ (mineFactors cfg false env fuel).finalSave = false
    ∧ (mineFactors cfg false env fuel).escapedExn = true := by
  refine ⟨?_, ?_, ?_⟩
  · intro h
    simp only [mineFactors, if_true] at h ⊢
    simp_all
  · simp [mineFactors]
  · simp [mineFactors]

/-- C5, witness: a concrete run terminating at the cap, with the final save
performed. -/
theorem mine_factors_final_save_witness :
    (mineFactors ⟨1, 100, 1, 10⟩ true (fun _ => okCycle) 3).finalSave = true :=
  (mine_factors_final_save ⟨1, 100, 1, 10⟩ (fun _ => okCycle) 3).1 (by decide)

/-- C6 (confirmed): when the suggested dataset id matches no catalog entry and
the catalog is non-empty, `select_dataset` deterministically returns the first
catalog entry. -/
theorem select_dataset_fallback_first (d : Dataset) (rest : List Dataset)
    (sid : String) (habsent : ∀ x ∈ d :: rest, x.id ≠ sid) :
    select_dataset (d :: rest) sid = Except.ok d := by
  unfold select_dataset
  have hfind : (d :: rest).find? (fun x => x.id == sid) = none := by
    rw [List.find?_eq_none]
    intro x hx
    simpa using habsent x hx
  rw [hfind]

/-- C6, witness: a concrete two-entry catalog with an unknown suggestion. -/
theorem select_dataset_fallback_first_witness :
    select_dataset [⟨"alpha1"⟩, ⟨"beta2"⟩] "missing" = Except.ok ⟨"alpha1"⟩ :=
  select_dataset_fallback_first ⟨"alpha1"⟩ [⟨"beta2"⟩] "missing" (by decide)

/-- C7 (confirmed): the improvement sub-loop, entered with `iteration = 0`,
executes at most `maxIterations` passes before control returns to the outer
cycle. -/
theorem improve_loop_passes_le_max (env : Nat → RoundEnv) (m : Rat)
    (maxIter : Nat) (ds : Dataset) (acc : List FactorRecord) :
    (improveLoop env m maxIter ds 0 acc).passes ≤ maxIter := by
  simpa [improveLoop] using improveLoopAux_passes_le env m ds maxIter 0 acc

/-- C8 (confirmed): when an improvement round fully succeeds and its report's
primary score (the value of the first `is.checks` entry) reaches `minSharpe`,
the sub-loop appends that record and terminates in that same pass — no further
revision is attempted. -/
theorem improve_loop_stops_on_score (env : Nat → RoundEnv) (m : Rat)
    (maxIter : Nat) (ds : Dataset) (it : Nat) (acc : List FactorRecord)
    (e a : String) (cd : Option (List (Option Rat))) (v : Rat)
    (hit : it < maxIter)
    (hg : (env it).genNext = StepRes.ok e) (he : e ≠ "")
    (hs : (env it).simRes = some a)
    (hc : (env it).checkRes = CheckRes.ok cd)
    (hv : primaryScore cd = Except.ok v)
    (hm : m ≤ v) :
    improveLoop env m maxIter ds it acc = ⟨acc ++ [⟨e, a, cd, ds⟩], 1⟩ := by
  obtain ⟨r, hr⟩ : ∃ r, maxIter - it = r + 1 := ⟨maxIter - it - 1, by omega⟩
  unfold improveLoop
  rw [hr]
  simp only [improveLoopAux]
  unfold improvePass
  rw [hg]
  dsimp only
  rw [if_neg he, hs, hc]
  dsimp only
  rw [hv]
  dsimp only
  rw [if_pos hm]

/-- C8, witness: a concrete round scoring 5 against a threshold of 3/2. -/
theorem improve_loop_stops_on_score_witness :
    improveLoop (fun _ => ⟨StepRes.ok "fw", some "aw", CheckRes.ok (some [some 5])⟩)
        (3 / 2) 4 ⟨"dsw"⟩ 0 [] =
      ⟨[⟨"fw", "aw", some [some 5], ⟨"dsw"⟩⟩], 1⟩ :=
  improve_loop_stops_on_score
    (fun _ => ⟨StepRes.ok "fw", some "aw", CheckRes.ok (some [some 5])⟩)
    (3 / 2) 4 ⟨"dsw"⟩ 0 [] "fw" "aw" (some [some 5]) 5
    (by decide) rfl (by decide) rfl rfl rfl (by norm_num)

/-- C9 (confirmed): a record is appended only when both the simulation
produced a usable id and the check returned a non-empty report.  When the
seed simulation report lacks the id, the cycle leaves the mined list (and the
snapshots) untouched and continues with the next cycle; likewise for a failed
seed check; and a sub-loop round whose simulation lacks the id breaks out of
the sub-loop with the list unchanged. -/
theorem record_append_requires_success (cfg : MiningConfig) (c : CycleEnv)
    (s : MineState) (e a : String) (ds : Dataset) (env : Nat → RoundEnv)
    (m : Rat) (maxIter it : Nat) (acc : List FactorRecord) :
    (c.selectDs = StepRes.ok ds → c.genInit = StepRes.ok e → e ≠ "" →
      c.simRes = none →
      runCycle cfg c s = ({ s with cyclesRun := s.cyclesRun + 1 }, false))
    ∧ (c.selectDs = StepRes.ok ds → c.genInit = StepRes.ok e → e ≠ "" →
      c.simRes = some a → c.checkRes = CheckRes.empty →
      runCycle cfg c s = ({ s with cyclesRun := s.cyclesRun + 1 }, false))
    ∧ (it < maxIter → (env it).genNext = StepRes.ok e → e ≠ "" →
      (env it).simRes = none →
      improveLoop env m maxIter ds it acc = ⟨acc, 1⟩) := by
  refine ⟨?_, ?_, ?_⟩
  · intro h1 h2 h3 h4
    unfold runCycle
    rw [h1, h2]
    dsimp only
    rw [if_neg h3, h4]
  · intro h1 h2 h3 h4 h5
    unfold runCycle
    rw [h1, h2]
    dsimp only
    rw [if_neg h3, h4, h5]
  · intro h1 h2 h3 h4
    obtain ⟨r, hr⟩ : ∃ r, maxIter - it = r + 1 := ⟨maxIter - it - 1, by omega⟩
    unfold improveLoop
    rw [hr]
    simp only [improveLoopAux]
    unfold improvePass
    rw [h2]
    dsimp only
    rw [if_neg h3, h4]

/-- C9, witness: concrete failing seed simulation, failing seed check, and
failing sub-loop simulation. -/
theorem record_append_requires_success_witness :
    runCycle ⟨1, 100, 100, 10⟩
        ⟨StepRes.ok dsX, StepRes.ok "f0", none, CheckRes.empty, fun _ => okRound⟩
        initState =
      ({ initState with cyclesRun := initState.cyclesRun + 1 }, false)
    ∧ runCycle ⟨1, 100, 100, 10⟩
        ⟨StepRes.ok dsX, StepRes.ok "f0", some "a0", CheckRes.empty, fun _ => okRound⟩
        initState =
      ({ initState with cyclesRun := initState.cyclesRun + 1 }, false)
    ∧ improveLoop (fun _ => ⟨StepRes.ok "f1", none, CheckRes.empty⟩) 100 4 dsX 0 [] =
      ⟨[], 1⟩ :=
  ⟨(record_append_requires_success ⟨1, 100, 100, 10⟩
      ⟨StepRes.ok dsX, StepRes.ok "f0", none, CheckRes.empty, fun _ => okRound⟩
      initState "f0" "a0" dsX (fun _ => okRound) 100 4 0 []).1
      rfl rfl (by decide) rfl,
   (record_append_requires_success ⟨1, 100, 100, 10⟩
      ⟨StepRes.ok dsX, StepRes.ok "f0", some "a0", CheckRes.empty, fun _ => okRound⟩
      initState "f0" "a0" dsX (fun _ => okRound) 100 4 0 []).2.1
      rfl rfl (by decide) rfl rfl,
   (record_append_requires_success ⟨1, 100, 100, 10⟩
      ⟨StepRes.exn, StepRes.exn, none, CheckRes.empty, fun _ => okRound⟩
      initState "f1" "a1" dsX (fun _ => ⟨StepRes.ok "f1", none, CheckRes.empty⟩)
      100 4 0 []).2.2
      (by decide) rfl (by decide) rfl⟩

/-- C10 (confirmed): on an empty catalog the fallback `results[0]` of the
Controller raises `IndexError`, and so does the AI client's own default path
— a non-empty catalog is an unstated precondition of dataset selection. -/
theorem select_dataset_empty_catalog_raises (sid : String) :
    select_dataset [] sid = Except.error PyErr.indexError
    ∧ aiSelectFallbackId [] = Except.error PyErr.indexError :=
  ⟨rfl, rfl⟩
